import Mathlib

/-!
Verification of the google-calendar-streamable-mcp-server repository against its
natural-language specification.

The repository's OAuth 2.1 authorization subsystem (crypto codec, storage
backends, transaction store, flow controller, token mapper) lives in
`src/oauth/` and `src/storage/`, which are not part of the provided sources;
those components are modelled here from the specification text (each such
definition carries a doc comment starting `Modelled from the spec:`).  The
tool and resource handlers that are present in the sources (`configResource`,
`githubReposTool`) are embedded directly from the TypeScript code.

Machine integers do not occur in the modelled fragment; times and TTLs are
natural numbers (seconds), byte strings are lists of booleans (bits).
-/

namespace CalendarMcp

/-! ## Storage Backend -/

/-- Modelled from the spec: a Storage Backend is durable key/value persistence
with per-key expiry (`src/storage/` is not among the provided sources).  An
entry is a key, a value, and the absolute time at which its TTL elapses. -/
structure Storage (α : Type) where
  entries : List (String × α × Nat)
deriving DecidableEq

/-- Modelled from the spec: `get(key) -> value|absent`.  A key whose TTL has
elapsed reads as absent (expiry is lazy, checked at read time); an absent or
expired key yields `none`, never an exception (the function is total). -/
def Storage.get {α : Type} (s : Storage α) (now : Nat) (key : String) : Option α :=
  match s.entries.find? (fun e => e.1 == key) with
  | some e => if now < e.2.2 then some e.2.1 else none
  | none => none

/-- Modelled from the spec: `set(key, value, ttl)` stores the value under the
key with expiry `now + ttl`, replacing any previous entry for that key. -/
def Storage.set {α : Type} (s : Storage α) (now : Nat) (key : String) (value : α)
    (ttl : Nat) : Storage α :=
  ⟨(key, value, now + ttl) :: s.entries.filter (fun e => !(e.1 == key))⟩

/-- Modelled from the spec: `delete(key)` removes every entry for the key. -/
def Storage.delete {α : Type} (s : Storage α) (key : String) : Storage α :=
  ⟨s.entries.filter (fun e => !(e.1 == key))⟩

/-- Modelled from the spec: the three Storage Backend variants (in-memory,
file-backed, managed key-value service). -/
inductive StorageVariant
  | memory
  | file
  | kv
deriving DecidableEq

/-- Modelled from the spec: "All three variants expose identical semantics" —
each variant's `get` is the shared `Storage.get`. -/
def StorageVariant.get {α : Type} : StorageVariant → Storage α → Nat → String → Option α
  | _, s, now, key => s.get now key

/-- Modelled from the spec: each variant's `set` is the shared `Storage.set`. -/
def StorageVariant.set {α : Type} :
    StorageVariant → Storage α → Nat → String → α → Nat → Storage α
  | _, s, now, key, value, ttl => s.set now key value ttl

/-- Modelled from the spec: each variant's `delete` is the shared
`Storage.delete`. -/
def StorageVariant.delete {α : Type} : StorageVariant → Storage α → String → Storage α
  | _, s, key => s.delete key

/-! ## Transaction Store and Authorization Flow Controller -/

/-- Modelled from the spec: the error taxonomy of the authorization subsystem
(`src/oauth/` is not among the provided sources). -/
inductive OAuthError
  | InvalidRedirect
  | UnknownTransaction
  | UpstreamExchangeError
  | NotFound
  | Unauthenticated
  | Expired
deriving DecidableEq

/-- Modelled from the spec: an AuthTransaction is one in-flight authorization
attempt — transaction id, PKCE verifier/challenge pair, requested scopes,
client-supplied redirect target, creation timestamp and expiry. -/
structure AuthTransaction where
  txnId : String
  codeVerifier : String
  codeChallenge : String
  scopes : List String
  redirectUri : String
  createdAt : Nat
  expiresAt : Nat
deriving DecidableEq

/-- Modelled from the spec: `begin(redirectTarget, scopes)` generates a random
id and PKCE verifier/challenge pair (randomness and the SHA-256 derivation
happen outside the model, so id, verifier and challenge are inputs), persists
the transaction keyed by its id with a short TTL, and returns it. -/
def TransactionStore.begin (store : Storage AuthTransaction) (now : Nat)
    (txnId codeVerifier codeChallenge redirectUri : String) (scopes : List String)
    (ttl : Nat) : AuthTransaction × Storage AuthTransaction :=
  let txn : AuthTransaction :=
    { txnId := txnId, codeVerifier := codeVerifier, codeChallenge := codeChallenge,
      scopes := scopes, redirectUri := redirectUri, createdAt := now,
      expiresAt := now + ttl }
  (txn, store.set now txnId txn ttl)

/-- Modelled from the spec: `redeem(transactionId)` atomically reads-then-deletes;
an unknown, expired or already-redeemed id fails with `UnknownTransaction`. -/
def TransactionStore.redeem (store : Storage AuthTransaction) (now : Nat)
    (txnId : String) :
    Except OAuthError (AuthTransaction × Storage AuthTransaction) :=
  match store.get now txnId with
  | some txn => .ok (txn, store.delete txnId)
  | none => .error .UnknownTransaction

/-- Modelled from the spec: the Redirect Allowlist Validator,
`isAllowed(candidateUri, allowlist)` — exact-string membership, no prefix or
wildcard comparison. -/
def isAllowed (candidateUri : String) (allowlist : List String) : Bool :=
  allowlist.contains candidateUri

/-- Modelled from the spec: the provider authorization URL embeds the PKCE
challenge and the transaction id as state. -/
def authorizationUrl (txn : AuthTransaction) : String :=
  "https://accounts.google.com/o/oauth2/v2/auth?code_challenge=" ++
    txn.codeChallenge ++ "&state=" ++ txn.txnId

/-- Modelled from the spec: `startAuthorization(redirectUri, scopes)` validates
the redirect URI against the allowlist (failing `InvalidRedirect` before any
transaction is created), begins a transaction, and returns the provider URL.
The returned storage is the state after the call: on rejection it is the input
storage unchanged. -/
def startAuthorization (allowlist : List String) (store : Storage AuthTransaction)
    (now : Nat) (txnId codeVerifier codeChallenge redirectUri : String)
    (scopes : List String) (ttl : Nat) :
    Except OAuthError String × Storage AuthTransaction :=
  if isAllowed redirectUri allowlist then
    let p := TransactionStore.begin store now txnId codeVerifier codeChallenge
      redirectUri scopes ttl
    (.ok (authorizationUrl p.1), p.2)
  else
    (.error .InvalidRedirect, store)

/-! ## Crypto Codec -/

/-- Modelled from the spec: codec failures — `IntegrityError` when the tag does
not verify, `ConfigError` when no key is configured. -/
inductive CryptoError
  | IntegrityError
  | ConfigError
deriving DecidableEq

/-- Modelled from the spec: an EncryptionEnvelope is ciphertext, nonce/IV and an
integrity tag, opaque outside the Codec.  Byte strings are bit lists. -/
structure EncryptionEnvelope where
  nonce : List Bool
  ciphertext : List Bool
  tag : List Bool
deriving DecidableEq

/-- Self-delimiting unary bit encoding of a natural number, used by the
idealized cipher model and the record serializer. -/
def encodeNat (n : Nat) : List Bool :=
  List.replicate n true ++ [false]

/-- Modelled from the spec: the keystream of the authenticated symmetric cipher
(256-bit key, per-call nonce).  The concrete stream function stands in for
AES-256-GCM's counter stream; only its determinism in (key, nonce, length)
matters to the stated properties. -/
def keystream (key nonce : List Bool) (n : Nat) : List Bool :=
  (List.range n).map (fun i =>
    xor (key.getD (i % 256) false) (nonce.getD (i % 96) false))

/-- Modelled from the spec: the integrity tag over key, nonce and ciphertext.
An ideal (collision-free) MAC is modelled as a self-delimiting encoding of its
inputs, the standard symbolic idealization of an authenticated cipher. -/
def macTag (key nonce ciphertext : List Bool) : List Bool :=
  key ++ encodeNat nonce.length ++ nonce ++ ciphertext

/-- Modelled from the spec: `seal(plaintext, key) -> EncryptionEnvelope` — the
ciphertext is the plaintext XORed with the keystream, and the envelope carries
the nonce and the integrity tag. -/
def sealEnvelope (plaintext key nonce : List Bool) : EncryptionEnvelope :=
  let ct := List.zipWith xor plaintext (keystream key nonce plaintext.length)
  { nonce := nonce, ciphertext := ct, tag := macTag key nonce ct }

/-- Modelled from the spec: `open(envelope, key) -> plaintext | fails(IntegrityError)`
— the integrity tag is verified before decryption; on verification failure the
only outcome is `IntegrityError`. -/
def openEnvelope (env : EncryptionEnvelope) (key : List Bool) :
    Except CryptoError (List Bool) :=
  if env.tag = macTag key env.nonce env.ciphertext then
    .ok (List.zipWith xor env.ciphertext (keystream key env.nonce env.ciphertext.length))
  else
    .error .IntegrityError

/-- A position of a single bit inside an EncryptionEnvelope. -/
inductive BitPos
  | nonceBit (i : Nat)
  | ctBit (i : Nat)
  | tagBit (i : Nat)

/-- Flip the bit at an index (identity outside the list). -/
def flipAt (l : List Bool) (i : Nat) : List Bool :=
  l.set i (!(l.getD i false))

/-- The envelope with the bit at the given position flipped. -/
def EncryptionEnvelope.flipBit (env : EncryptionEnvelope) : BitPos → EncryptionEnvelope
  | .nonceBit i => { env with nonce := flipAt env.nonce i }
  | .ctBit i => { env with ciphertext := flipAt env.ciphertext i }
  | .tagBit i => { env with tag := flipAt env.tag i }

/-- The position denotes an actual bit of the envelope. -/
def BitPos.valid : BitPos → EncryptionEnvelope → Bool
  | .nonceBit i, env => decide (i < env.nonce.length)
  | .ctBit i, env => decide (i < env.ciphertext.length)
  | .tagBit i, env => decide (i < env.tag.length)

/-! ## TokenRecord and its serialization -/

/-- Modelled from the spec: a TokenRecord holds the credentials of one
authenticated session — local bearer token, upstream access token, optional
upstream refresh token, granted scopes, issue time, access-token expiry and
provider identity.  This is the plaintext value handed to the Crypto Codec. -/
structure TokenRecord where
  bearerToken : String
  accessToken : String
  refreshToken : Option String
  scopes : List String
  issuedAt : Nat
  expiresAt : Nat
  providerIdentity : String
deriving DecidableEq

/-- Length-prefixed bit encoding of a list. -/
def encodeList {α : Type} (enc : α → List Bool) (xs : List α) : List Bool :=
  encodeNat xs.length ++ (xs.map enc).flatten

/-- Bit encoding of a character by its code point. -/
def encodeChar (c : Char) : List Bool :=
  encodeNat c.toNat

/-- Bit encoding of a string, character by character. -/
def encodeString (s : String) : List Bool :=
  encodeList encodeChar s.toList

/-- Bit encoding of an optional value. -/
def encodeOpt {α : Type} (enc : α → List Bool) : Option α → List Bool
  | none => [false]
  | some a => true :: enc a

/-- Serialization of a TokenRecord into the plaintext bits given to the
Crypto Codec. -/
def encodeTokenRecord (r : TokenRecord) : List Bool :=
  encodeString r.bearerToken ++ encodeString r.accessToken ++
    encodeOpt encodeString r.refreshToken ++ encodeList encodeString r.scopes ++
    encodeNat r.issuedAt ++ encodeNat r.expiresAt ++ encodeString r.providerIdentity

/-- Inverse of `encodeNat`. -/
def decodeNat : List Bool → Option (Nat × List Bool)
  | [] => none
  | false :: rest => some (0, rest)
  | true :: rest =>
    match decodeNat rest with
    | some (n, r) => some (n + 1, r)
    | none => none

/-- Decode a fixed number of values in sequence. -/
def decodeCount {α : Type} (dec : List Bool → Option (α × List Bool)) :
    Nat → List Bool → Option (List α × List Bool)
  | 0, l => some ([], l)
  | n + 1, l =>
    match dec l with
    | some (a, r) =>
      match decodeCount dec n r with
      | some (as, r2) => some (a :: as, r2)
      | none => none
    | none => none

/-- Inverse of `encodeList`. -/
def decodeList {α : Type} (dec : List Bool → Option (α × List Bool))
    (l : List Bool) : Option (List α × List Bool) :=
  match decodeNat l with
  | some (n, r) => decodeCount dec n r
  | none => none

/-- Inverse of `encodeChar`. -/
def decodeChar (l : List Bool) : Option (Char × List Bool) :=
  match decodeNat l with
  | some (n, r) => some (Char.ofNat n, r)
  | none => none

/-- Inverse of `encodeString`. -/
def decodeString (l : List Bool) : Option (String × List Bool) :=
  match decodeList decodeChar l with
  | some (cs, r) => some (String.mk cs, r)
  | none => none

/-- Inverse of `encodeOpt`. -/
def decodeOpt {α : Type} (dec : List Bool → Option (α × List Bool)) :
    List Bool → Option (Option α × List Bool)
  | [] => none
  | false :: rest => some (none, rest)
  | true :: rest =>
    match dec rest with
    | some (a, r) => some (some a, r)
    | none => none

/-- Inverse of `encodeTokenRecord`. -/
def decodeTokenRecord (l : List Bool) : Option (TokenRecord × List Bool) :=
  match decodeString l with
  | none => none
  | some (bearerToken, l1) =>
    match decodeString l1 with
    | none => none
    | some (accessToken, l2) =>
      match decodeOpt decodeString l2 with
      | none => none
      | some (refreshToken, l3) =>
        match decodeList decodeString l3 with
        | none => none
        | some (scopes, l4) =>
          match decodeNat l4 with
          | none => none
          | some (issuedAt, l5) =>
            match decodeNat l5 with
            | none => none
            | some (expiresAt, l6) =>
              match decodeString l6 with
              | none => none
              | some (providerIdentity, l7) =>
                some ({ bearerToken := bearerToken, accessToken := accessToken,
                        refreshToken := refreshToken, scopes := scopes,
                        issuedAt := issuedAt, expiresAt := expiresAt,
                        providerIdentity := providerIdentity }, l7)

/-- Modelled from the spec: sealing a TokenRecord value — the record is
serialized and passed to the Codec's `seal`. -/
def sealRecord (rec : TokenRecord) (key nonce : List Bool) : EncryptionEnvelope :=
  sealEnvelope (encodeTokenRecord rec) key nonce

/-- Modelled from the spec: opening an envelope back into a TokenRecord; a
payload that does not decode to a record is treated as corrupted. -/
def openRecord (env : EncryptionEnvelope) (key : List Bool) :
    Except CryptoError TokenRecord :=
  match openEnvelope env key with
  | .error e => .error e
  | .ok bits =>
    match decodeTokenRecord bits with
    | some (rec, []) => .ok rec
    | _ => .error .IntegrityError

/-! ## Token persistence, exchange, refresh, revocation, resolution -/

/-- Modelled from the spec: the upstream provider's token-endpoint response —
access token, optional (possibly rotated) refresh token, lifetime, identity. -/
structure UpstreamTokens where
  accessToken : String
  refreshToken : Option String
  expiresIn : Nat
  providerIdentity : String

/-- Modelled from the spec: outcome of a call to the provider's token endpoint. -/
inductive UpstreamOutcome
  | success (tokens : UpstreamTokens)
  | rejected
  | networkError

/-- Modelled from the spec: the token store keeps, per bearer token, only the
Crypto Codec's output — an EncryptionEnvelope, never a plaintext record. -/
def TokenStore : Type := Storage EncryptionEnvelope

/-- Modelled from the spec: `handleCallback(transactionId, code)` redeems the
transaction (failing `UnknownTransaction`), exchanges the code plus stored PKCE
verifier with the provider (failing `UpstreamExchangeError`), mints a bearer
token, seals the new TokenRecord and persists only the sealed envelope.
The provider call is modelled by the `exchange` argument; the minted bearer
token, the encryption key and the nonce are inputs (randomness is external).
Returns the result together with the transaction store and token store after
the call. -/
def handleCallback (txnStore : Storage AuthTransaction) (tokStore : TokenStore)
    (now : Nat) (txnId code : String)
    (exchange : String → String → UpstreamOutcome)
    (newBearer : String) (encKey nonce : List Bool) (tokTtl : Nat) :
    Except OAuthError String × Storage AuthTransaction × TokenStore :=
  match TransactionStore.redeem txnStore now txnId with
  | .error e => (.error e, txnStore, tokStore)
  | .ok (txn, txnStore2) =>
    match exchange code txn.codeVerifier with
    | .rejected => (.error .UpstreamExchangeError, txnStore2, tokStore)
    | .networkError => (.error .UpstreamExchangeError, txnStore2, tokStore)
    | .success up =>
      let rec2 : TokenRecord :=
        { bearerToken := newBearer, accessToken := up.accessToken,
          refreshToken := up.refreshToken, scopes := txn.scopes,
          issuedAt := now, expiresAt := now + up.expiresIn,
          providerIdentity := up.providerIdentity }
      (.ok newBearer, txnStore2,
        Storage.set tokStore now newBearer (sealRecord rec2 encKey nonce) tokTtl)

/-- Modelled from the spec: `refresh(bearerToken)` looks up and decrypts the
record (failing `NotFound` when absent or unreadable), calls the provider's
refresh endpoint; on success it replaces access token and expiry and rotates
the refresh token if the provider rotated it; on provider rejection it deletes
the record and fails `NotFound`; on a network fault it fails
`UpstreamExchangeError` without touching the record. -/
def refreshOp (tokStore : TokenStore) (now : Nat) (bearer : String)
    (refreshCall : String → UpstreamOutcome) (encKey nonce : List Bool)
    (tokTtl : Nat) : Except OAuthError TokenRecord × TokenStore :=
  match Storage.get tokStore now bearer with
  | none => (.error .NotFound, tokStore)
  | some env =>
    match openRecord env encKey with
    | .error _ => (.error .NotFound, tokStore)
    | .ok r =>
      match r.refreshToken with
      | none => (.error .NotFound, tokStore)
      | some rt =>
        match refreshCall rt with
        | .networkError => (.error .UpstreamExchangeError, tokStore)
        | .rejected => (.error .NotFound, Storage.delete tokStore bearer)
        | .success up =>
          let r2 : TokenRecord :=
            { r with accessToken := up.accessToken,
                     expiresAt := now + up.expiresIn,
                     refreshToken := some (up.refreshToken.getD rt) }
          (.ok r2, Storage.set tokStore now bearer (sealRecord r2 encKey nonce) tokTtl)

/-- Modelled from the spec: `revoke(bearerToken)` deletes the TokenRecord and
best-effort notifies the provider's revocation endpoint; the caller-visible
operation never fails, even when the upstream call fails (`upstreamOk = false`).
Local deletion is the authoritative outcome. -/
def revoke (tokStore : TokenStore) (bearer : String) (upstreamOk : Bool) :
    Except OAuthError Unit × TokenStore :=
  (.ok (), Storage.delete tokStore bearer)

/-- Modelled from the spec: the Resource-Server Token Mapper's
`resolve(bearerToken)` — an absent or unreadable record fails
`Unauthenticated`; an unexpired record yields the upstream access token; an
expired record triggers one transparent refresh, surfacing `Unauthenticated`
when that fails. -/
def resolve (tokStore : TokenStore) (now : Nat) (bearer : String)
    (refreshCall : String → UpstreamOutcome) (encKey nonce : List Bool)
    (tokTtl : Nat) : Except OAuthError String × TokenStore :=
  match Storage.get tokStore now bearer with
  | none => (.error .Unauthenticated, tokStore)
  | some env =>
    match openRecord env encKey with
    | .error _ => (.error .Unauthenticated, tokStore)
    | .ok r =>
      if now < r.expiresAt then (.ok r.accessToken, tokStore)
      else
        match refreshOp tokStore now bearer refreshCall encKey nonce tokTtl with
        | (.ok r2, tokStore2) => (.ok r2.accessToken, tokStore2)
        | (.error _, tokStore2) => (.error .Unauthenticated, tokStore2)

/-- The persistence-boundary invariant of claim C5: every value in the token
store is an envelope produced by the Crypto Codec under the configured key —
never a plaintext record. -/
def SealedStore (encKey : List Bool) (tokStore : TokenStore) : Prop :=
  ∀ e ∈ tokStore.entries, ∃ r nonce, e.2.1 = sealRecord r encKey nonce

/-! ## Embedding of `configResource` (src/unnamed/part_000) -/

/-- One element of the `contents` array returned by the `config://server`
resource handler, as built in the source. -/
structure ResourceContent where
  uri : String
  name : String
  title : String
  mimeType : String
  text : String
  audience : List String
  priority : Float
  lastModified : String

/-- The `ReadResourceResult` shape returned by the handler. -/
structure ReadResourceResult where
  contents : List ResourceContent

/-- Embedding of the `configResource.handler` from `src/unnamed/part_000`:
it applies `redactSensitiveData` to the whole `config` object and serializes
only the redacted value into the single content element.  The configuration
type, the redaction function, `JSON.stringify` and `new Date().toISOString()`
live outside the provided sources and are parameters. -/
def configResourceHandler {Config SafeConfig : Type} (config : Config)
    (redactSensitiveData : Config → SafeConfig)
    (jsonStringify : SafeConfig → String) (nowIso : String) : ReadResourceResult :=
  let safeConfig := redactSensitiveData config
  { contents :=
      [{ uri := "config://server", name := "server-config.json",
         title := "Server Configuration", mimeType := "application/json",
         text := jsonStringify safeConfig,
         audience := ["user", "assistant"], priority := 0.7,
         lastModified := nowIso }] }

/-! ## Embedding of the `github-repos` tool's authentication check
(src/src/tools/research.tool.ts, `githubReposTool.handler`) -/

/-- JavaScript's `\s` character class (the whitespace set used by the regex
engine for `/^\s*Bearer\s+(.+)$/i`). -/
def isJsWhitespace (c : Char) : Bool :=
  let n := c.toNat
  n == 0x09 || n == 0x0A || n == 0x0B || n == 0x0C || n == 0x0D || n == 0x20 ||
  n == 0xA0 || n == 0x1680 || (0x2000 ≤ n && n ≤ 0x200A) || n == 0x2028 ||
  n == 0x2029 || n == 0x202F || n == 0x205F || n == 0x3000 || n == 0xFEFF

/-- JavaScript line terminators, which `.` does not match (no `s` flag). -/
def isLineTerminator (c : Char) : Bool :=
  let n := c.toNat
  n == 0x0A || n == 0x0D || n == 0x2028 || n == 0x2029

/-- Consume the literal `Bearer` case-insensitively (the `/i` flag; only ASCII
letters case-fold onto `b`, `e`, `a`, `r`). -/
def stripBearerCI : List Char → Option (List Char)
  | c1 :: c2 :: c3 :: c4 :: c5 :: c6 :: rest =>
    if c1.toLower == 'b' && c2.toLower == 'e' && c3.toLower == 'a' &&
        c4.toLower == 'r' && c5.toLower == 'e' && c6.toLower == 'r' then
      some rest
    else none
  | _ => none

/-- Match `\s*(.+)$` with the regex engine's greedy backtracking: extend the
whitespace run as far as possible, falling back to capturing from the current
position; `(.+)$` succeeds on a nonempty suffix free of line terminators. -/
def captureRest : List Char → Option (List Char)
  | [] => none
  | c :: cs =>
    if isJsWhitespace c then
      match captureRest cs with
      | some tok => some tok
      | none =>
        if (c :: cs).all (fun x => !(isLineTerminator x)) then some (c :: cs)
        else none
    else
      if (c :: cs).all (fun x => !(isLineTerminator x)) then some (c :: cs)
      else none

/-- Embedding of `authHeader.match(/^\s*Bearer\s+(.+)$/i)` followed by
`match?.[1]`: the captured token, or `none` when the header does not match. -/
def bearerTokenMatch (s : String) : Option String :=
  match stripBearerCI (s.toList.dropWhile isJsWhitespace) with
  | none => none
  | some rest =>
    match rest with
    | [] => none
    | c :: cs =>
      if isJsWhitespace c then
        match captureRest cs with
        | some tok => some (String.mk tok)
        | none => none
      else none

/-- Outcome of the authentication phase of the `github-repos` handler:
either an early `isError: true` result (no network call is made), or the
single outbound `fetch` to the GitHub API with the extracted token — `fetchCall`
is the only continuation that performs an HTTP request. -/
inductive ToolPhase
  | errorResult (text : String)
  | fetchCall (token : String)
deriving DecidableEq

/-- The text of the handler's "Authentication Required" error result. -/
def authRequiredText : String :=
  "## Authentication Required\n\nThis tool requires GitHub OAuth authentication. Please configure OAuth and provide a Bearer token."

/-- The text of the handler's "Invalid Token" error result. -/
def invalidTokenText : String :=
  "## Invalid Token\n\nAuthorization header must be in format: Bearer <token>"

/-- Embedding of the authentication phase of `githubReposTool.handler`
(src/src/tools/research.tool.ts lines 394-448).  The input is
`context?.authHeaders?.authorization`: `none` models any broken optional chain
(`context`, `authHeaders` or `authorization` undefined); a present empty string
is falsy in `!context?.authHeaders?.authorization` and hits the same branch. -/
def githubReposAuthCheck (authorization : Option String) : ToolPhase :=
  match authorization with
  | none => .errorResult authRequiredText
  | some h =>
    if h = "" then .errorResult authRequiredText
    else
      match bearerTokenMatch h with
      | some tok => .fetchCall tok
      | none => .errorResult invalidTokenText

/-! ## Theorems -/

theorem Storage.get_set_expired {α : Type} (s : Storage α) (t0 key value ttl t)
    (h : t0 + ttl ≤ t) : (s.set t0 key value ttl).get t key = none := by
  simp only [Storage.get, Storage.set, List.find?, beq_self_eq_true]
  rw [if_neg (by omega)]

theorem Storage.get_absent {α : Type} (s : Storage α) (now key)
    (h : ∀ e ∈ s.entries, e.1 ≠ key) : s.get now key = none := by
  unfold Storage.get
  cases hf : s.entries.find? (fun e => e.1 == key) with
  | none => simp
  | some e =>
    exfalso
    have hp := List.find?_some hf
    have hm := List.mem_of_find?_eq_some hf
    exact h e hm (by simpa using hp)

theorem Storage.get_delete {α : Type} (s : Storage α) (now key) :
    (s.delete key).get now key = none := by
  apply Storage.get_absent
  intro e he
  have := List.of_mem_filter (by exact he)
  simpa using this

theorem TransactionStore.redeem_deletes (store : Storage AuthTransaction)
    (now : Nat) (txnId : String) (txn : AuthTransaction)
    (store' : Storage AuthTransaction)
    (h : TransactionStore.redeem store now txnId = .ok (txn, store')) :
    store' = store.delete txnId := by
  unfold TransactionStore.redeem at h
  cases hg : store.get now txnId with
  | none => rw [hg] at h; exact absurd h (by simp)
  | some t =>
    rw [hg] at h
    have h2 : t = txn ∧ store.delete txnId = store' := by simpa using h
    exact h2.2.symm

theorem TransactionStore.redeem_twice (store : Storage AuthTransaction)
    (now : Nat) (txnId : String) (txn : AuthTransaction)
    (store' : Storage AuthTransaction)
    (h : TransactionStore.redeem store now txnId = .ok (txn, store'))
    (now' : Nat) :
    TransactionStore.redeem store' now' txnId = .error .UnknownTransaction := by
  rw [TransactionStore.redeem_deletes store now txnId txn store' h]
  unfold TransactionStore.redeem
  rw [Storage.get_delete]

theorem TransactionStore.redeem_expired (store : Storage AuthTransaction)
    (t0 : Nat) (txnId codeVerifier codeChallenge redirectUri : String)
    (scopes : List String) (ttl t : Nat) (h : t0 + ttl ≤ t) :
    TransactionStore.redeem
      (TransactionStore.begin store t0 txnId codeVerifier codeChallenge
        redirectUri scopes ttl).2 t txnId = .error .UnknownTransaction := by
  unfold TransactionStore.redeem TransactionStore.begin
  rw [Storage.get_set_expired _ _ _ _ _ _ h]

theorem flipAt_length (l : List Bool) (i : Nat) : (flipAt l i).length = l.length := by
  simp [flipAt]

theorem flipAt_ne (l : List Bool) (i : Nat) (h : i < l.length) : flipAt l i ≠ l := by
  intro he
  have h1 : (flipAt l i).getD i false = !(l.getD i false) := by
    unfold flipAt
    rw [List.getD_eq_getElem _ _ (by simpa using h)]
    simp
  rw [he] at h1
  cases hb : l.getD i false <;> rw [hb] at h1 <;> simp at h1

theorem zipWith_xor_cancel (p ks : List Bool) (h : ks.length = p.length) :
    List.zipWith xor (List.zipWith xor p ks) ks = p := by
  induction p generalizing ks with
  | nil => simp
  | cons a as ih =>
    cases ks with
    | nil => simp at h
    | cons b bs =>
      simp only [List.zipWith]
      rw [ih bs (by simpa using h)]
      cases a <;> cases b <;> rfl

theorem keystream_length (key nonce : List Bool) (n : Nat) :
    (keystream key nonce n).length = n := by
  simp [keystream]

theorem seal_ciphertext_length (plaintext key nonce : List Bool) :
    (sealEnvelope plaintext key nonce).ciphertext.length = plaintext.length := by
  simp [sealEnvelope, keystream_length]

/-- Tag verification succeeds on an untampered envelope, and decryption
inverts encryption. -/
theorem openEnvelope_seal (plaintext key nonce : List Bool) :
    openEnvelope (sealEnvelope plaintext key nonce) key = .ok plaintext := by
  unfold openEnvelope
  rw [if_pos (by simp [sealEnvelope])]
  simp only [sealEnvelope]
  rw [List.length_zipWith, keystream_length, Nat.min_self,
    zipWith_xor_cancel _ _ (keystream_length key nonce plaintext.length)]

/-- With equal-length keys, a tag determines the key (prefix cancellation). -/
theorem macTag_key_inj (key1 key2 nonce ct : List Bool)
    (hl : key1.length = key2.length)
    (h : macTag key1 nonce ct = macTag key2 nonce ct) : key1 = key2 := by
  unfold macTag at h
  rw [List.append_assoc, List.append_assoc, List.append_assoc, List.append_assoc] at h
  exact (List.append_inj h hl).1

/-- With the nonce length unchanged, a tag determines the nonce. -/
theorem macTag_nonce_inj (key nonce1 nonce2 ct : List Bool)
    (hl : nonce1.length = nonce2.length)
    (h : macTag key nonce1 ct = macTag key nonce2 ct) : nonce1 = nonce2 := by
  unfold macTag at h
  rw [hl] at h
  rw [List.append_assoc, List.append_assoc, List.append_assoc, List.append_assoc] at h
  have h2 := List.append_cancel_left h
  have h3 := List.append_cancel_left h2
  exact (List.append_inj h3 hl).1

/-- A tag determines the ciphertext. -/
theorem macTag_ct_inj (key nonce ct1 ct2 : List Bool)
    (h : macTag key nonce ct1 = macTag key nonce ct2) : ct1 = ct2 := by
  unfold macTag at h
  rw [List.append_assoc, List.append_assoc, List.append_assoc, List.append_assoc] at h
  have h2 := List.append_cancel_left h
  have h3 := List.append_cancel_left h2
  exact List.append_cancel_left h3

/-- Opening with a different key of the same length fails the tag check. -/
theorem openEnvelope_wrong_key (plaintext key key2 nonce : List Bool)
    (hl : key2.length = key.length) (hne : key2 ≠ key) :
    openEnvelope (sealEnvelope plaintext key nonce) key2 = .error .IntegrityError := by
  unfold openEnvelope
  rw [if_neg]
  intro h
  simp only [sealEnvelope] at h
  exact hne (macTag_key_inj key2 key nonce _ hl h.symm)

/-- Opening an envelope with any single bit flipped fails the tag check. -/
theorem openEnvelope_flipBit (plaintext key nonce : List Bool) (pos : BitPos)
    (hv : pos.valid (sealEnvelope plaintext key nonce) = true) :
    openEnvelope ((sealEnvelope plaintext key nonce).flipBit pos) key =
      .error .IntegrityError := by
  cases pos with
  | nonceBit i =>
    simp only [BitPos.valid, sealEnvelope, decide_eq_true_eq] at hv
    unfold openEnvelope
    rw [if_neg]
    intro h
    simp only [EncryptionEnvelope.flipBit, sealEnvelope] at h
    exact flipAt_ne nonce i hv
      (macTag_nonce_inj key (flipAt nonce i) nonce _ (flipAt_length nonce i) h.symm)
  | ctBit i =>
    simp only [BitPos.valid, decide_eq_true_eq] at hv
    unfold openEnvelope
    rw [if_neg]
    intro h
    simp only [EncryptionEnvelope.flipBit, sealEnvelope] at h
    have hlen : ((sealEnvelope plaintext key nonce).ciphertext).length =
        plaintext.length := seal_ciphertext_length plaintext key nonce
    exact flipAt_ne _ i (by simpa [sealEnvelope] using hv)
      (macTag_ct_inj key nonce _ _ h.symm)
  | tagBit i =>
    simp only [BitPos.valid, sealEnvelope, decide_eq_true_eq] at hv
    unfold openEnvelope
    rw [if_neg]
    intro h
    simp only [EncryptionEnvelope.flipBit, sealEnvelope] at h
    exact flipAt_ne _ i hv h

theorem decodeNat_encodeNat (n : Nat) (r : List Bool) :
    decodeNat (encodeNat n ++ r) = some (n, r) := by
  induction n with
  | zero => rfl
  | succ m ih =>
    show decodeNat (true :: (encodeNat m ++ r)) = some (m + 1, r)
    simp only [decodeNat, ih]

theorem decodeChar_encodeChar (c : Char) (r : List Bool) :
    decodeChar (encodeChar c ++ r) = some (c, r) := by
  simp only [decodeChar, encodeChar, decodeNat_encodeNat, Char.ofNat_toNat]

theorem decodeCount_encode {α : Type} (dec : List Bool → Option (α × List Bool))
    (enc : α → List Bool) (hd : ∀ a r, dec (enc a ++ r) = some (a, r))
    (xs : List α) (r : List Bool) :
    decodeCount dec xs.length ((xs.map enc).flatten ++ r) = some (xs, r) := by
  induction xs with
  | nil => rfl
  | cons a as ih =>
    show decodeCount dec (as.length + 1) ((enc a ++ (as.map enc).flatten) ++ r) =
      some (a :: as, r)
    rw [List.append_assoc]
    simp only [decodeCount, hd, ih]

theorem decodeList_encodeList {α : Type} (dec : List Bool → Option (α × List Bool))
    (enc : α → List Bool) (hd : ∀ a r, dec (enc a ++ r) = some (a, r))
    (xs : List α) (r : List Bool) :
    decodeList dec (encodeList enc xs ++ r) = some (xs, r) := by
  unfold decodeList encodeList
  rw [List.append_assoc, decodeNat_encodeNat]
  simp only [decodeCount_encode dec enc hd]

theorem decodeString_encodeString (s : String) (r : List Bool) :
    decodeString (encodeString s ++ r) = some (s, r) := by
  unfold decodeString encodeString
  rw [decodeList_encodeList decodeChar encodeChar decodeChar_encodeChar]
  rfl

theorem decodeOpt_encodeOpt {α : Type} (dec : List Bool → Option (α × List Bool))
    (enc : α → List Bool) (hd : ∀ a r, dec (enc a ++ r) = some (a, r))
    (x : Option α) (r : List Bool) :
    decodeOpt dec (encodeOpt enc x ++ r) = some (x, r) := by
  cases x with
  | none => rfl
  | some a =>
    show decodeOpt dec (true :: (enc a ++ r)) = some (some a, r)
    simp only [decodeOpt, hd]

theorem decodeTokenRecord_encodeTokenRecord (rec : TokenRecord) (r : List Bool) :
    decodeTokenRecord (encodeTokenRecord rec ++ r) = some (rec, r) := by
  unfold decodeTokenRecord encodeTokenRecord
  simp only [List.append_assoc]
  rw [decodeString_encodeString]
  simp only
  rw [decodeString_encodeString]
  simp only
  rw [decodeOpt_encodeOpt decodeString encodeString decodeString_encodeString]
  simp only
  rw [decodeList_encodeList decodeString encodeString decodeString_encodeString]
  simp only
  rw [decodeNat_encodeNat]
  simp only
  rw [decodeNat_encodeNat]
  simp only
  rw [decodeString_encodeString]

theorem openRecord_sealRecord (rec : TokenRecord) (key nonce : List Bool) :
    openRecord (sealRecord rec key nonce) key = .ok rec := by
  unfold openRecord sealRecord
  rw [openEnvelope_seal]
  have h : decodeTokenRecord (encodeTokenRecord rec) = some (rec, []) := by
    have := decodeTokenRecord_encodeTokenRecord rec []
    simpa using this
  simp only [h]

theorem SealedStore.set (encKey : List Bool) (tokStore : TokenStore)
    (h : SealedStore encKey tokStore) (now : Nat) (key : String)
    (r : TokenRecord) (nonce : List Bool) (ttl : Nat) :
    SealedStore encKey (Storage.set tokStore now key (sealRecord r encKey nonce) ttl) := by
  intro e he
  rw [Storage.set] at he
  rcases List.mem_cons.mp he with h1 | h2
  · exact ⟨r, nonce, by rw [h1]⟩
  · exact h e (List.mem_of_mem_filter h2)

theorem SealedStore.delete (encKey : List Bool) (tokStore : TokenStore)
    (h : SealedStore encKey tokStore) (key : String) :
    SealedStore encKey (Storage.delete tokStore key) := by
  intro e he
  rw [Storage.delete] at he
  exact h e (List.mem_of_mem_filter he)

theorem SealedStore.handleCallback (encKey : List Bool)
    (txnStore : Storage AuthTransaction) (tokStore : TokenStore)
    (h : SealedStore encKey tokStore) (now : Nat) (txnId code : String)
    (exchange : String → String → UpstreamOutcome) (newBearer : String)
    (nonce : List Bool) (tokTtl : Nat) :
    SealedStore encKey
      (handleCallback txnStore tokStore now txnId code exchange newBearer
        encKey nonce tokTtl).2.2 := by
  unfold CalendarMcp.handleCallback
  split
  · exact h
  · split
    · exact h
    · exact h
    · exact SealedStore.set encKey tokStore h now newBearer _ nonce tokTtl

theorem SealedStore.refreshOp (encKey : List Bool) (tokStore : TokenStore)
    (h : SealedStore encKey tokStore) (now : Nat) (bearer : String)
    (refreshCall : String → UpstreamOutcome) (nonce : List Bool) (tokTtl : Nat) :
    SealedStore encKey
      (refreshOp tokStore now bearer refreshCall encKey nonce tokTtl).2 := by
  unfold CalendarMcp.refreshOp
  split
  · exact h
  · split
    · exact h
    · split
      · exact h
      · split
        · exact h
        · exact SealedStore.delete encKey tokStore h bearer
        · exact SealedStore.set encKey tokStore h now bearer _ nonce tokTtl

theorem SealedStore.revoke (encKey : List Bool) (tokStore : TokenStore)
    (h : SealedStore encKey tokStore) (bearer : String) (upstreamOk : Bool) :
    SealedStore encKey (revoke tokStore bearer upstreamOk).2 :=
  SealedStore.delete encKey tokStore h bearer

theorem Storage.delete_idem {α : Type} (s : Storage α) (key : String) :
    (s.delete key).delete key = s.delete key := by
  unfold Storage.delete
  congr 1
  simp [List.filter_filter]

/-! ## The claims -/

/-- C1: a transaction id created by `startAuthorization`/`begin` is redeemable
at most once — a successful redeem deletes the stored AuthTransaction, any
second redeem with the same id fails with `UnknownTransaction`, and any redeem
after the transaction's TTL has elapsed fails with `UnknownTransaction`. -/
theorem claim_C1 :
    (∀ (store : Storage AuthTransaction) (now : Nat) (txnId : String)
        (txn : AuthTransaction) (store2 : Storage AuthTransaction),
      TransactionStore.redeem store now txnId = .ok (txn, store2) →
        store2 = store.delete txnId ∧
        ∀ now2, TransactionStore.redeem store2 now2 txnId =
          .error .UnknownTransaction) ∧
    (∀ (store : Storage AuthTransaction) (t0 : Nat)
        (txnId codeVerifier codeChallenge redirectUri : String)
        (scopes : List String) (ttl t : Nat),
      t0 + ttl ≤ t →
        TransactionStore.redeem
          (TransactionStore.begin store t0 txnId codeVerifier codeChallenge
            redirectUri scopes ttl).2 t txnId = .error .UnknownTransaction) :=
  ⟨fun store now txnId txn store2 h =>
    ⟨TransactionStore.redeem_deletes store now txnId txn store2 h,
     fun now2 => TransactionStore.redeem_twice store now txnId txn store2 h now2⟩,
   fun store t0 txnId codeVerifier codeChallenge redirectUri scopes ttl t h =>
    TransactionStore.redeem_expired store t0 txnId codeVerifier codeChallenge
      redirectUri scopes ttl t h⟩

/-- Witness for C1: a transaction begun at time 0 with the spec scenario's TTL
of 5 minutes is redeemed successfully at 100 s; a second redeem of the same id
fails, and a fresh transaction redeemed at 360 s (after 6 minutes) fails. -/
theorem claim_C1_witness :
    TransactionStore.redeem
      (Storage.delete
        (TransactionStore.begin ⟨[]⟩ 0 "txn1" "ver" "chal"
          "https://client.example/cb" ["calendar"] 300).2 "txn1") 200 "txn1" =
      .error .UnknownTransaction ∧
    TransactionStore.redeem
      (TransactionStore.begin ⟨[]⟩ 0 "txn1" "ver" "chal"
        "https://client.example/cb" ["calendar"] 300).2 360 "txn1" =
      .error .UnknownTransaction :=
  ⟨(claim_C1.1
      (TransactionStore.begin ⟨[]⟩ 0 "txn1" "ver" "chal"
        "https://client.example/cb" ["calendar"] 300).2 100 "txn1"
      { txnId := "txn1", codeVerifier := "ver", codeChallenge := "chal",
        scopes := ["calendar"], redirectUri := "https://client.example/cb",
        createdAt := 0, expiresAt := 300 }
      (Storage.delete
        (TransactionStore.begin ⟨[]⟩ 0 "txn1" "ver" "chal"
          "https://client.example/cb" ["calendar"] 300).2 "txn1")
      rfl).2 200,
   claim_C1.2 ⟨[]⟩ 0 "txn1" "ver" "chal" "https://client.example/cb"
     ["calendar"] 300 360 (by decide)⟩

/-- C2: for every TokenRecord value and every valid 256-bit key, opening the
envelope sealed with the same key returns the original value. -/
theorem claim_C2 (rec : TokenRecord) (key nonce : List Bool)
    (hkey : key.length = 256) :
    openRecord (sealRecord rec key nonce) key = .ok rec :=
  openRecord_sealRecord rec key nonce

/-- Witness for C2: the round trip evaluated at a concrete record, an all-zero
256-bit key and a 96-bit nonce. -/
theorem claim_C2_witness :
    (List.replicate 256 false).length = 256 ∧
    openRecord
      (sealRecord
        { bearerToken := "b", accessToken := "at", refreshToken := none,
          scopes := [], issuedAt := 0, expiresAt := 10, providerIdentity := "g" }
        (List.replicate 256 false) (List.replicate 96 false))
      (List.replicate 256 false) =
      .ok { bearerToken := "b", accessToken := "at", refreshToken := none,
            scopes := [], issuedAt := 0, expiresAt := 10,
            providerIdentity := "g" } :=
  ⟨List.length_replicate 256 false,
   claim_C2
     { bearerToken := "b", accessToken := "at", refreshToken := none,
       scopes := [], issuedAt := 0, expiresAt := 10, providerIdentity := "g" }
     (List.replicate 256 false) (List.replicate 96 false)
     (List.length_replicate 256 false)⟩

/-- C3: opening an envelope with a different (valid) key than the one that
sealed it, or opening the envelope with any single bit flipped, fails with
`IntegrityError` — by the shape of `openEnvelope` no plaintext is returned and
no other error is raised. -/
theorem claim_C3 (plaintext key key2 nonce : List Bool)
    (hk : key.length = 256) (hk2 : key2.length = 256) :
    (key2 ≠ key →
      openEnvelope (sealEnvelope plaintext key nonce) key2 =
        .error .IntegrityError) ∧
    (∀ pos : BitPos, pos.valid (sealEnvelope plaintext key nonce) = true →
      openEnvelope ((sealEnvelope plaintext key nonce).flipBit pos) key =
        .error .IntegrityError) :=
  ⟨fun hne =>
    openEnvelope_wrong_key plaintext key key2 nonce (hk2.trans hk.symm) hne,
   fun pos hv => openEnvelope_flipBit plaintext key nonce pos hv⟩

/-- Witness for C3: a wrong key and a flipped ciphertext bit, evaluated on a
one-bit plaintext with concrete 256-bit keys. -/
theorem claim_C3_witness :
    openEnvelope (sealEnvelope [true] (List.replicate 256 false) [false])
      (true :: List.replicate 255 false) = .error .IntegrityError ∧
    openEnvelope
      ((sealEnvelope [true] (List.replicate 256 false) [false]).flipBit
        (BitPos.ctBit 0)) (List.replicate 256 false) = .error .IntegrityError :=
  ⟨(claim_C3 [true] (List.replicate 256 false) (true :: List.replicate 255 false)
      [false] (List.length_replicate 256 false)
      (by rw [List.length_cons, List.length_replicate])).1 (by decide),
   (claim_C3 [true] (List.replicate 256 false) (true :: List.replicate 255 false)
      [false] (List.length_replicate 256 false)
      (by rw [List.length_cons, List.length_replicate])).2 (BitPos.ctBit 0)
      (by decide)⟩

/-- C4: `startAuthorization` with a redirect URI that is not an exact-string
member of the allowlist fails with `InvalidRedirect` and has no side effects —
the returned transaction store is the input store, so no AuthTransaction is
created and no storage key is written. -/
theorem claim_C4 (allowlist : List String) (store : Storage AuthTransaction)
    (now : Nat) (txnId codeVerifier codeChallenge redirectUri : String)
    (scopes : List String) (ttl : Nat) (h : redirectUri ∉ allowlist) :
    startAuthorization allowlist store now txnId codeVerifier codeChallenge
      redirectUri scopes ttl = (.error .InvalidRedirect, store) := by
  unfold startAuthorization
  rw [if_neg]
  intro hc
  apply h
  simpa [isAllowed] using hc

/-- Witness for C4: the spec scenario — allowlist
`["https://client.example/cb"]`, request for `https://evil.example/cb`. -/
theorem claim_C4_witness :
    startAuthorization ["https://client.example/cb"] ⟨[]⟩ 0 "txn1" "ver" "chal"
      "https://evil.example/cb" ["calendar"] 300 =
      (.error .InvalidRedirect, ⟨[]⟩) :=
  claim_C4 ["https://client.example/cb"] ⟨[]⟩ 0 "txn1" "ver" "chal"
    "https://evil.example/cb" ["calendar"] 300 (by decide)

/-- C5: every operation of the authorization subsystem preserves the
persistence-boundary invariant — the token store only ever holds the Crypto
Codec's sealed envelopes, for token exchange (`handleCallback`), refresh and
revocation alike; no plaintext record crosses the boundary. -/
theorem claim_C5 (encKey : List Bool) (txnStore : Storage AuthTransaction)
    (tokStore : TokenStore) (hs : SealedStore encKey tokStore) (now : Nat)
    (txnId code bearer newBearer : String)
    (exchange : String → String → UpstreamOutcome)
    (refreshCall : String → UpstreamOutcome) (nonce : List Bool)
    (tokTtl : Nat) (upstreamOk : Bool) :
    SealedStore encKey
      (handleCallback txnStore tokStore now txnId code exchange newBearer
        encKey nonce tokTtl).2.2 ∧
    SealedStore encKey
      (refreshOp tokStore now bearer refreshCall encKey nonce tokTtl).2 ∧
    SealedStore encKey (revoke tokStore bearer upstreamOk).2 :=
  ⟨SealedStore.handleCallback encKey txnStore tokStore hs now txnId code
      exchange newBearer nonce tokTtl,
   SealedStore.refreshOp encKey tokStore hs now bearer refreshCall nonce tokTtl,
   SealedStore.revoke encKey tokStore hs bearer upstreamOk⟩

/-- Witness for C5: the invariant holds after a concrete successful exchange,
refresh and revocation starting from the empty (trivially sealed) store. -/
theorem claim_C5_witness :
    SealedStore (List.replicate 256 false)
      (handleCallback
        (TransactionStore.begin ⟨[]⟩ 0 "txn1" "ver" "chal"
          "https://client.example/cb" ["calendar"] 300).2
        ⟨[]⟩ 10 "txn1" "code"
        (fun _ _ => .success ⟨"AT", some "RT", 3600, "user@example.com"⟩)
        "bearer1" (List.replicate 256 false) (List.replicate 96 false)
        3600).2.2 ∧
    SealedStore (List.replicate 256 false)
      (refreshOp ⟨[]⟩ 10 "bearer1" (fun _ => .rejected)
        (List.replicate 256 false) (List.replicate 96 false) 3600).2 ∧
    SealedStore (List.replicate 256 false) (revoke ⟨[]⟩ "bearer1" false).2 :=
  ⟨(claim_C5 (List.replicate 256 false)
      (TransactionStore.begin ⟨[]⟩ 0 "txn1" "ver" "chal"
        "https://client.example/cb" ["calendar"] 300).2
      ⟨[]⟩ (by intro e he; simp at he) 10 "txn1" "code" "bearer1" "bearer1"
      (fun _ _ => .success ⟨"AT", some "RT", 3600, "user@example.com"⟩)
      (fun _ => .rejected) (List.replicate 96 false) 3600 false).1,
   (claim_C5 (List.replicate 256 false) ⟨[]⟩ ⟨[]⟩ (by intro e he; simp at he)
      10 "txn1" "code" "bearer1" "bearer1"
      (fun _ _ => .success ⟨"AT", some "RT", 3600, "user@example.com"⟩)
      (fun _ => .rejected) (List.replicate 96 false) 3600 false).2.1,
   (claim_C5 (List.replicate 256 false) ⟨[]⟩ ⟨[]⟩ (by intro e he; simp at he)
      10 "txn1" "code" "bearer1" "bearer1"
      (fun _ _ => .success ⟨"AT", some "RT", 3600, "user@example.com"⟩)
      (fun _ => .rejected) (List.replicate 96 false) 3600 false).2.2⟩

/-- C6: for every storage variant, a key set with a TTL reads as absent once
the TTL has elapsed, and `get` on a key with no entry returns the non-error
absent result `none` (by construction `get` is total — it never throws). -/
theorem claim_C6 (v : StorageVariant) (s : Storage String) (t0 : Nat)
    (key : String) (value : String) (ttl t now : Nat) :
    (t0 + ttl ≤ t →
      StorageVariant.get v (StorageVariant.set v s t0 key value ttl) t key =
        none) ∧
    ((∀ e ∈ s.entries, e.1 ≠ key) → StorageVariant.get v s now key = none) := by
  cases v <;>
    exact ⟨fun h => Storage.get_set_expired s t0 key value ttl t h,
           fun h => Storage.get_absent s now key h⟩

/-- Witness for C6: on the in-memory variant, a key set at time 0 with TTL 300
reads as absent at time 300, and an absent key reads as `none`. -/
theorem claim_C6_witness :
    StorageVariant.get .memory
      (StorageVariant.set .memory ⟨[]⟩ 0 "k" "v" 300) 300 "k" = none ∧
    StorageVariant.get .memory (⟨[]⟩ : Storage String) 5 "k" = none :=
  ⟨(claim_C6 .memory ⟨[]⟩ 0 "k" "v" 300 300 5).1 (by decide),
   (claim_C6 .memory ⟨[]⟩ 0 "k" "v" 300 300 5).2 (by intro e he; simp at he)⟩

/-- C7: after `revoke(token)` — which never fails the caller, regardless of the
upstream revocation outcome — `resolve(token)` fails with `Unauthenticated`:
the local deletion is authoritative. -/
theorem claim_C7 (tokStore : TokenStore) (bearer : String) (upstreamOk : Bool)
    (now : Nat) (refreshCall : String → UpstreamOutcome)
    (encKey nonce : List Bool) (tokTtl : Nat) :
    (revoke tokStore bearer upstreamOk).1 = .ok () ∧
    (resolve (revoke tokStore bearer upstreamOk).2 now bearer refreshCall
      encKey nonce tokTtl).1 = .error .Unauthenticated := by
  refine ⟨rfl, ?_⟩
  show (resolve (Storage.delete tokStore bearer) now bearer refreshCall
    encKey nonce tokTtl).1 = .error .Unauthenticated
  unfold resolve
  rw [Storage.get_delete]

/-- C8: `revoke` is idempotent at the caller-visible interface — a second
revocation of an already-revoked token still returns success, and leaves the
store exactly as it was after the first call. -/
theorem claim_C8 (tokStore : TokenStore) (bearer : String) (ok1 ok2 : Bool) :
    (revoke (revoke tokStore bearer ok1).2 bearer ok2).1 = .ok () ∧
    (revoke (revoke tokStore bearer ok1).2 bearer ok2).2 =
      (revoke tokStore bearer ok1).2 := by
  refine ⟨rfl, ?_⟩
  show Storage.delete (Storage.delete tokStore bearer) bearer =
    Storage.delete tokStore bearer
  exact Storage.delete_idem tokStore bearer

/-- C9: the `config://server` resource handler returns, as the text of its
single content element, exactly the serialization of `redactSensitiveData`
applied to the whole configuration object — the raw configuration is never
serialized into the response. -/
theorem claim_C9 {Config SafeConfig : Type} (config : Config)
    (redactSensitiveData : Config → SafeConfig)
    (jsonStringify : SafeConfig → String) (nowIso : String) :
    (configResourceHandler config redactSensitiveData jsonStringify
      nowIso).contents.map (fun c => c.text) =
      [jsonStringify (redactSensitiveData config)] := rfl

/-- C10: the `github-repos` handler returns an `isError` result — and in
particular never reaches the `fetchCall` phase that performs the outbound HTTP
request — when the request context carries no authorization header (or an
empty one, which is falsy), and when the header does not match
`/^\s*Bearer\s+(.+)$/i`. -/
theorem claim_C10 (authorization : Option String) :
    (authorization = none →
      githubReposAuthCheck authorization = .errorResult authRequiredText) ∧
    (authorization = some "" →
      githubReposAuthCheck authorization = .errorResult authRequiredText) ∧
    (∀ h, authorization = some h → h ≠ "" → bearerTokenMatch h = none →
      githubReposAuthCheck authorization = .errorResult invalidTokenText) := by
  refine ⟨fun h => by rw [h]; rfl, fun h => by rw [h]; rfl, fun h hh hne hm => ?_⟩
  rw [hh]
  show (if h = "" then ToolPhase.errorResult authRequiredText
    else match bearerTokenMatch h with
      | some tok => ToolPhase.fetchCall tok
      | none => ToolPhase.errorResult invalidTokenText) =
    ToolPhase.errorResult invalidTokenText
  rw [if_neg hne, hm]

/-- Witness for C10: a missing header, an empty header, and a header using the
wrong scheme (`Token abc`) all produce error results. -/
theorem claim_C10_witness :
    githubReposAuthCheck none = .errorResult authRequiredText ∧
    githubReposAuthCheck (some "") = .errorResult authRequiredText ∧
    githubReposAuthCheck (some "Token abc") = .errorResult invalidTokenText :=
  ⟨(claim_C10 none).1 rfl, (claim_C10 (some "")).2.1 rfl,
   (claim_C10 (some "Token abc")).2.2 "Token abc" rfl (by decide) (by decide)⟩

end CalendarMcp
